import Mathlib

/-!
Verification of the Advisor MCP tool dispatcher (`src/index.ts`).

The development shallowly embeds the dispatcher: JavaScript values are the
inductive `JsValue`, each tool handler is split into the backend request it
builds (`..._request`) and the reply it shapes from the backend response
(`..._reply`), and the per-session registration logic is `registeredTools`.
JS strings are modelled as Lean `String` (sequences of characters);
`toUpperCase` is modelled on the ASCII range.
-/

/-- A JavaScript runtime value, as needed by the handlers: JSON values plus
`undefined`. -/
inductive JsValue where
  | undefined
  | null
  | bool (b : Bool)
  | num (n : Int)
  | str (s : String)
  | arr (xs : List JsValue)
  | obj (fields : List (String × JsValue))

/-- Is the value a string? -/
def JsValue.isStr : JsValue → Bool
  | .str _ => true
  | _ => false

/-- Is the value `undefined`? -/
def JsValue.isUndefined : JsValue → Bool
  | .undefined => true
  | _ => false

/-- Is the value nullish (`null` or `undefined`), as tested by `??`. -/
def jsNullish : JsValue → Bool
  | .undefined => true
  | .null => true
  | _ => false

/-- Optional-chained member access `v?.f` (and plain access on a non-nullish
receiver): field of an object, `undefined` on anything else. -/
def jsOptMemberV (v : JsValue) (f : String) : JsValue :=
  match v with
  | .obj fields => (fields.lookup f).getD .undefined
  | _ => .undefined

/-- Plain member access `v.f`: throws a `TypeError` when the receiver is
nullish, otherwise as `jsOptMemberV`. -/
def jsMember (v : JsValue) (f : String) : Except String JsValue :=
  match v with
  | .undefined => Except.error "TypeError: cannot read properties of undefined"
  | .null => Except.error "TypeError: cannot read properties of null"
  | .bool _ => Except.ok .undefined
  | .num _ => Except.ok .undefined
  | .str _ => Except.ok .undefined
  | .arr _ => Except.ok .undefined
  | .obj fields => Except.ok ((fields.lookup f).getD .undefined)

/-- Nullish coalescing `v ?? d`. -/
def jsCoalesce (v d : JsValue) : JsValue :=
  if jsNullish v then d else v

/-- The WHATWG white-space set trimmed by `String.prototype.trim`. -/
def isJsSpace (c : Char) : Bool :=
  c.toNat = 32 || c.toNat = 9 || c.toNat = 10 || c.toNat = 13 ||
  c.toNat = 11 || c.toNat = 12 || c.toNat = 0xA0 || c.toNat = 0x1680 ||
  (0x2000 ≤ c.toNat && c.toNat ≤ 0x200A) || c.toNat = 0x2028 ||
  c.toNat = 0x2029 || c.toNat = 0x202F || c.toNat = 0x205F ||
  c.toNat = 0x3000 || c.toNat = 0xFEFF

/-- `s.trim()`. -/
def jsTrim (s : String) : String :=
  String.mk (((s.data.dropWhile isJsSpace).reverse.dropWhile isJsSpace).reverse)

/-- ASCII upper-casing of one character (the fragment of
`String.prototype.toUpperCase` the repository exercises). -/
def asciiUpperChar (c : Char) : Char :=
  if 97 ≤ c.toNat && c.toNat ≤ 122 then Char.ofNat (c.toNat - 32) else c

/-- `s.toUpperCase()`, modelled on the ASCII range. -/
def jsToUpperAscii (s : String) : String :=
  String.mk (s.data.map asciiUpperChar)

/-- `s.replace(/\/+$/, "")`: strip all trailing slashes. -/
def stripTrailingSlashes (s : String) : String :=
  String.mk ((s.data.reverse.dropWhile (fun c => c.toNat = 47)).reverse)

/-- `s.slice(0, n)`: the first at-most-`n` characters of `s`. -/
def jsSlice0 (s : String) (n : Nat) : String :=
  String.mk (s.data.take n)

/-- Upper-case hexadecimal digit for `n < 16`. -/
def hexUpperDigit (n : Nat) : Char :=
  if n < 10 then Char.ofNat (48 + n) else Char.ofNat (55 + n)

/-- `%XX` escape of one byte, upper-case hex as produced by
`encodeURIComponent` and `URLSearchParams`. -/
def percentEscape (b : Nat) : List Char :=
  [Char.ofNat 37, hexUpperDigit (b / 16), hexUpperDigit (b % 16)]

/-- UTF-8 bytes of one character. -/
def utf8Bytes (c : Char) : List Nat :=
  let n := c.toNat
  if n < 0x80 then [n]
  else if n < 0x800 then [0xC0 + n / 0x40, 0x80 + n % 0x40]
  else if n < 0x10000 then
    [0xE0 + n / 0x1000, 0x80 + (n / 0x40) % 0x40, 0x80 + n % 0x40]
  else
    [0xF0 + n / 0x40000, 0x80 + (n / 0x1000) % 0x40,
     0x80 + (n / 0x40) % 0x40, 0x80 + n % 0x40]

/-- Bytes `encodeURIComponent` leaves unescaped:
`A-Z a-z 0-9 - _ . ! ~ * ' ( )`. -/
def isUriUnreservedByte (b : Nat) : Bool :=
  (65 ≤ b && b ≤ 90) || (97 ≤ b && b ≤ 122) || (48 ≤ b && b ≤ 57) ||
  b = 45 || b = 95 || b = 46 || b = 33 || b = 126 || b = 42 ||
  b = 39 || b = 40 || b = 41

/-- One byte of `encodeURIComponent` output. -/
def encodeUriByte (b : Nat) : List Char :=
  if isUriUnreservedByte b then [Char.ofNat b] else percentEscape b

/-- `encodeURIComponent(s)`. -/
def encodeURIComponent (s : String) : String :=
  String.mk ((s.data.map (fun c => ((utf8Bytes c).map encodeUriByte).flatten)).flatten)

/-- Bytes the `application/x-www-form-urlencoded` serializer (used by
`URLSearchParams.toString`) leaves unescaped: `A-Z a-z 0-9 * - . _`. -/
def isFormUnreservedByte (b : Nat) : Bool :=
  (65 ≤ b && b ≤ 90) || (97 ≤ b && b ≤ 122) || (48 ≤ b && b ≤ 57) ||
  b = 42 || b = 45 || b = 46 || b = 95

/-- One byte of form-urlencoded output: space becomes `+`. -/
def encodeFormByte (b : Nat) : List Char :=
  if b = 32 then [Char.ofNat 43]
  else if isFormUnreservedByte b then [Char.ofNat b]
  else percentEscape b

/-- Form-urlencoding of one key or value, as `URLSearchParams.toString`
does. -/
def formEncode (s : String) : String :=
  String.mk ((s.data.map (fun c => ((utf8Bytes c).map encodeFormByte).flatten)).flatten)

/-- `URLSearchParams.toString()` over an ordered list of key/value pairs. -/
def searchParamsToString (ps : List (String × String)) : String :=
  String.intercalate "&" (ps.map (fun p => formEncode p.1 ++ "=" ++ formEncode p.2))

example : encodeURIComponent "AAPL" = "AAPL" := by decide
example : encodeURIComponent "a b/c" = "a%20b%2Fc" := by decide
example : formEncode "a b" = "a+b" := by decide
example : jsTrim " msft " = "msft" := by decide
example : jsToUpperAscii "msft" = "MSFT" := by decide
example : stripTrailingSlashes "https://x.y//" = "https://x.y" := by decide
example : jsSlice0 "abcdef" 3 = "abc" := by decide

/-- JSON string quoting, as `JSON.stringify` renders string values. -/
def escapeJsonChar (c : Char) : List Char :=
  if c.toNat = 34 then [Char.ofNat 92, Char.ofNat 34]
  else if c.toNat = 92 then [Char.ofNat 92, Char.ofNat 92]
  else if c.toNat = 8 then [Char.ofNat 92, Char.ofNat 98]
  else if c.toNat = 12 then [Char.ofNat 92, Char.ofNat 102]
  else if c.toNat = 10 then [Char.ofNat 92, Char.ofNat 110]
  else if c.toNat = 13 then [Char.ofNat 92, Char.ofNat 114]
  else if c.toNat = 9 then [Char.ofNat 92, Char.ofNat 116]
  else if c.toNat < 32 then
    [Char.ofNat 92, Char.ofNat 117, Char.ofNat 48, Char.ofNat 48,
     hexUpperDigit (c.toNat / 16), hexUpperDigit (c.toNat % 16)]
  else [c]

/-- A JSON-quoted string literal. -/
def jsQuote (s : String) : String :=
  String.mk (Char.ofNat 34 :: (s.data.map escapeJsonChar).flatten ++ [Char.ofNat 34])

mutual

/-- `JSON.stringify(v, null, 2)` for a value sitting at indentation `ind`:
`none` models a result of `undefined`. -/
def jsonStringifyVal (ind : String) : JsValue → Option String
  | .undefined => none
  | .null => some "null"
  | .bool b => some (if b then "true" else "false")
  | .num n => some (toString n)
  | .str s => some (jsQuote s)
  | .arr xs =>
      some
        (match jsonStringifyItems (ind ++ "  ") xs with
         | [] => "[]"
         | items =>
             "[\n" ++
             String.intercalate ",\n" (items.map (fun s => ind ++ "  " ++ s)) ++
             "\n" ++ ind ++ "]")
  | .obj fs =>
      some
        (match jsonStringifyFields (ind ++ "  ") fs with
         | [] => "\x7b\x7d"
         | items =>
             "\x7b\n" ++
             String.intercalate ",\n" (items.map (fun s => ind ++ "  " ++ s)) ++
             "\n" ++ ind ++ "\x7d")

/-- Serialized array elements (an `undefined` element renders as `null`). -/
def jsonStringifyItems (ind : String) : List JsValue → List String
  | [] => []
  | x :: xs => ((jsonStringifyVal ind x).getD "null") :: jsonStringifyItems ind xs

/-- Serialized object entries (an `undefined`-valued field is skipped). -/
def jsonStringifyFields (ind : String) : List (String × JsValue) → List String
  | [] => []
  | (k, v) :: fs =>
      match jsonStringifyVal ind v with
      | none => jsonStringifyFields ind fs
      | some sv => (jsQuote k ++ ": " ++ sv) :: jsonStringifyFields ind fs

end

/-- The value stored when `JSON.stringify(v, null, 2)` is placed in a `text`
field: the serialized string, or `undefined` when serialization yields
`undefined`. -/
def stringifyTop (v : JsValue) : JsValue :=
  match jsonStringifyVal "" v with
  | some s => .str s
  | none => .undefined

/-- Cloudflare `fetch` cache options (`cf: { cacheTtl, cacheEverything }`). -/
structure CfProps where
  cacheTtl : Nat
  cacheEverything : Bool
deriving DecidableEq

/-- The single outbound HTTP request a handler builds: the full URL is the
normalized base address, then `path`, then (when `queryString ≠ ""`) a `?`
and `queryString`. -/
structure BackendRequest where
  method : String
  path : String
  queryString : String
  headers : List (String × String)
  cf : Option CfProps
  body : Option JsValue

/-- A backend HTTP response: status code, raw body text, and the body's
JSON parse (used only on the 2xx paths). -/
structure BackendResponse where
  status : Nat
  bodyText : String
  bodyJson : JsValue

/-- One protocol content block (`{ type, text }`). -/
structure ContentBlock where
  type : String
  text : JsValue

/-- A protocol reply (`{ content: [...] }`). -/
structure Reply where
  content : List ContentBlock

/-- `{ content: [{ type: "text", text: v }] }`, the reply shape every
handler returns. -/
def singleTextReply (v : JsValue) : Reply :=
  { content := [{ type := "text", text := v }] }

/-- `res.ok`: status in the 2xx range. -/
def resOk (status : Nat) : Bool :=
  decide (200 ≤ status ∧ status ≤ 299)

/-- The `cf` directive every GET in the file attaches. -/
def bypassCf : CfProps := { cacheTtl := 0, cacheEverything := false }

/-- The header list every GET in the file attaches. -/
def noStoreHeaders : List (String × String) := [("cache-control", "no-store")]

/-- `Array.from(new Set(l))` with `seen` the elements already inserted:
keeps the first occurrence of each element, in insertion order. -/
def jsSetDedupeAux (seen : List String) : List String → List String
  | [] => []
  | t :: ts =>
      if t ∈ seen then jsSetDedupeAux seen ts
      else t :: jsSetDedupeAux (seen ++ [t]) ts

/-- `Array.from(new Set(l))`. -/
def jsSetDedupe (l : List String) : List String :=
  jsSetDedupeAux [] l

/-- The cleaned ticker list of `ingest_from_finnhub`:
`Array.from(new Set(tickers.map(t => t.trim().toUpperCase()).filter(Boolean))).slice(0, 50)`. -/
def cleanedTickers (tickers : List String) : List String :=
  (jsSetDedupe ((tickers.map (fun t => jsToUpperAscii (jsTrim t))).filter
    (fun t => decide (t ≠ "")))).take 50

example : cleanedTickers ["aapl", "AAPL", " msft "] = ["AAPL", "MSFT"] := by decide
example : cleanedTickers ["   ", ""] = [] := by decide
example : jsonStringifyVal "" (.arr []) = some "[]" := by
  simp [jsonStringifyVal, jsonStringifyItems]

/-- The `list_universe` query parameters: `limit` always, then `sector`
only when provided and non-blank after trimming
(`if (sector && sector.trim()) qs.set("sector", sector.trim())`). -/
def listUniverse_params (sector : Option String) (limit : Nat) : List (String × String) :=
  let qs := [("limit", toString limit)]
  match sector with
  | some s => if s ≠ "" ∧ jsTrim s ≠ "" then qs ++ [("sector", jsTrim s)] else qs
  | none => qs

/-- The GET request `list_universe` builds. -/
def listUniverse_request (sector : Option String) (limit : Nat) : BackendRequest :=
  { method := "GET", path := "/universe",
    queryString := searchParamsToString (listUniverse_params sector limit),
    headers := noStoreHeaders, cf := some bypassCf, body := none }

/-- `Array.isArray(data?.items) ? data.items : []`. -/
def itemsArray (data : JsValue) : JsValue :=
  match jsOptMemberV data "items" with
  | JsValue.arr xs => JsValue.arr xs
  | _ => JsValue.arr []

/-- The reply `list_universe` shapes from the backend response. -/
def listUniverse_reply (res : BackendResponse) : Reply :=
  if resOk res.status then
    singleTextReply (stringifyTop (itemsArray res.bodyJson))
  else
    singleTextReply (.str ("Backend /universe failed: " ++ toString res.status))

/-- The POST request `explain_universe` builds
(`body: JSON.stringify({ risk, universe })`). -/
def explainUniverse_request (risk : Int) (univ : List String) : BackendRequest :=
  { method := "POST", path := "/explain", queryString := "",
    headers := [("content-type", "application/json")], cf := none,
    body := some (JsValue.obj
      [("risk", .num risk), ("universe", .arr (univ.map JsValue.str))]) }

/-- The reply `explain_universe` shapes
(`const text = data?.rationale ?? "No rationale."`). -/
def explainUniverse_reply (res : BackendResponse) : Reply :=
  if resOk res.status then
    singleTextReply (jsCoalesce (jsOptMemberV res.bodyJson "rationale")
      (.str "No rationale."))
  else
    singleTextReply (.str ("Backend /explain failed: " ++ toString res.status))

/-- The GET request `get_asset_details` builds
(`/asset/${encodeURIComponent(ticker)}`). -/
def getAssetDetails_request (ticker : String) : BackendRequest :=
  { method := "GET", path := "/asset/" ++ encodeURIComponent ticker,
    queryString := "", headers := noStoreHeaders, cf := some bypassCf,
    body := none }

/-- The reply `get_asset_details` shapes: `data.item` is plain member
access, so a nullish 2xx body throws out of the handler. -/
def getAssetDetails_reply (res : BackendResponse) : Except String Reply :=
  if resOk res.status then
    match jsMember res.bodyJson "item" with
    | Except.error e => Except.error e
    | Except.ok item => Except.ok (singleTextReply (stringifyTop item))
  else
    Except.ok (singleTextReply
      (.str ("Backend /asset failed: " ++ toString res.status)))

/-- The GET request `search_assets` builds
(`new URLSearchParams({ q, limit: String(limit) })`). -/
def searchAssets_request (q : String) (limit : Nat) : BackendRequest :=
  { method := "GET", path := "/search",
    queryString := searchParamsToString [("q", q), ("limit", toString limit)],
    headers := noStoreHeaders, cf := some bypassCf, body := none }

/-- The reply `search_assets` shapes from the backend response. -/
def searchAssets_reply (res : BackendResponse) : Reply :=
  if resOk res.status then
    singleTextReply (stringifyTop (itemsArray res.bodyJson))
  else
    singleTextReply (.str ("Backend /search failed: " ++ toString res.status))

/-- The `tickers=` query string `ingest_from_finnhub` builds
(`cleaned.map(t => `tickers=${encodeURIComponent(t)}`).join("&")`). -/
def ingestFromFinnhub_qs (cleaned : List String) : String :=
  String.intercalate "&" (cleaned.map (fun t => "tickers=" ++ encodeURIComponent t))

/-- The GET request `ingest_from_finnhub` builds once the cleaned list is
non-empty. -/
def ingestFromFinnhub_request (tickers : List String) : BackendRequest :=
  { method := "GET", path := "/ingest/finnhub",
    queryString := ingestFromFinnhub_qs (cleanedTickers tickers),
    headers := noStoreHeaders, cf := some bypassCf, body := none }

/-- The reply `ingest_from_finnhub` shapes: the empty-cleaned-list
short-circuit precedes the fetch. -/
def ingestFromFinnhub_reply (tickers : List String) (res : BackendResponse) : Reply :=
  if cleanedTickers tickers = [] then
    singleTextReply (.str "No valid tickers provided.")
  else if resOk res.status then
    singleTextReply (stringifyTop res.bodyJson)
  else
    singleTextReply (.str ("Backend /ingest/finnhub " ++ toString res.status ++
      ": " ++ jsSlice0 res.bodyText 200))

/-- The GET request `run_fundamentals` builds
(`/analyze/fundamentals?ticker=${encodeURIComponent(ticker)}`). -/
def runFundamentals_request (ticker : String) : BackendRequest :=
  { method := "GET", path := "/analyze/fundamentals",
    queryString := "ticker=" ++ encodeURIComponent ticker,
    headers := noStoreHeaders, cf := some bypassCf, body := none }

/-- The reply `run_fundamentals` shapes from the backend response. -/
def runFundamentals_reply (res : BackendResponse) : Reply :=
  if resOk res.status then
    singleTextReply (stringifyTop res.bodyJson)
  else
    singleTextReply (.str ("Backend /analyze/fundamentals " ++ toString res.status ++
      ": " ++ jsSlice0 res.bodyText 200))

/-- The fixed diagnostic reply of the degraded-mode `config_error` tool. -/
def configErrorReply : Reply :=
  singleTextReply (.str "Missing API_BASE env var. Set it in wrangler.jsonc under \x27vars\x27.")

/-- The `config_error` handler: `async () => ...` ignores whatever
arguments the transport passes. -/
def configErrorHandlerFn (_args : List (String × JsValue)) : Reply :=
  configErrorReply

/-- The tool names registered by a non-degraded session, in registration
order. -/
def normalToolNames : List String :=
  ["list_universe", "explain_universe", "get_asset_details",
   "search_assets", "ingest_from_finnhub", "run_fundamentals"]

/-- `MyMCP.init`: the tool set registered for a session with the given
configured base address (`API_BASE || ""` then strip trailing slashes;
degraded mode exactly when the normalized value is empty). -/
def registeredTools (apiBase : String) : List String :=
  if stripTrailingSlashes apiBase = "" then ["config_error"] else normalToolNames

/-- A validated tool invocation: one constructor per registered handler,
carrying the already-validated, already-defaulted arguments. -/
inductive Invocation where
  | listUniverse (sector : Option String) (limit : Nat)
  | explainUniverse (risk : Int) (univ : List String)
  | getAssetDetails (ticker : String)
  | searchAssets (q : String) (limit : Nat)
  | ingestFromFinnhub (tickers : List String)
  | runFundamentals (ticker : String)
  | configError
deriving DecidableEq

/-- The outbound HTTP requests a handler issues before returning: every
handler issues exactly one, except the `ingest_from_finnhub` empty-cleaned
short-circuit and `config_error`, which issue none. -/
def requestsOf : Invocation → List BackendRequest
  | .listUniverse s l => [listUniverse_request s l]
  | .explainUniverse r u => [explainUniverse_request r u]
  | .getAssetDetails t => [getAssetDetails_request t]
  | .searchAssets q l => [searchAssets_request q l]
  | .ingestFromFinnhub ts =>
      if cleanedTickers ts = [] then [] else [ingestFromFinnhub_request ts]
  | .runFundamentals t => [runFundamentals_request t]
  | .configError => []

/-- The reply a handler produces from the backend response (`Except.error`
models an exception escaping the handler). -/
def replyOf : Invocation → BackendResponse → Except String Reply
  | .listUniverse _ _, res => .ok (listUniverse_reply res)
  | .explainUniverse _ _, res => .ok (explainUniverse_reply res)
  | .getAssetDetails _, res => getAssetDetails_reply res
  | .searchAssets _ _, res => .ok (searchAssets_reply res)
  | .ingestFromFinnhub ts, res => .ok (ingestFromFinnhub_reply ts res)
  | .runFundamentals _, res => .ok (runFundamentals_reply res)
  | .configError, _ => .ok configErrorReply

/-- The path named in a tool's failure diagnostic. -/
def Invocation.backendPathName : Invocation → String
  | .listUniverse _ _ => "/universe"
  | .explainUniverse _ _ => "/explain"
  | .getAssetDetails _ => "/asset"
  | .searchAssets _ _ => "/search"
  | .ingestFromFinnhub _ => "/ingest/finnhub"
  | .runFundamentals _ => "/analyze/fundamentals"
  | .configError => ""

/-- Does the tool's failure diagnostic include a response-body excerpt? -/
def Invocation.includesBodyExcerpt : Invocation → Bool
  | .ingestFromFinnhub _ => true
  | .runFundamentals _ => true
  | _ => false

example : (listUniverse_request none 100).queryString = "limit=100" := by decide
example : (listUniverse_request (some " Tech ") 100).queryString = "limit=100&sector=Tech" := by decide
example : (ingestFromFinnhub_request ["aapl", "AAPL", " msft "]).queryString = "tickers=AAPL&tickers=MSFT" := by decide
example : registeredTools " " = normalToolNames := by decide
example : registeredTools "///" = ["config_error"] := by decide

/-- Membership in the de-duplicated list: an element survives exactly when
it occurs in the input and was not already inserted. -/
theorem mem_jsSetDedupeAux (x : String) :
    ∀ (l seen : List String),
      x ∈ jsSetDedupeAux seen l ↔ x ∈ l ∧ x ∉ seen := by
  intro l
  induction l with
  | nil => intro seen; simp [jsSetDedupeAux]
  | cons t ts ih =>
    intro seen
    by_cases h : t ∈ seen
    · rw [jsSetDedupeAux, if_pos h, ih seen]
      simp only [List.mem_cons]
      constructor
      · rintro ⟨hx, hn⟩; exact ⟨Or.inr hx, hn⟩
      · rintro ⟨hx | hx, hn⟩
        · exact absurd (hx ▸ h) hn
        · exact ⟨hx, hn⟩
    · rw [jsSetDedupeAux, if_neg h]
      simp only [List.mem_cons, ih (seen ++ [t]), List.mem_append,
        List.not_mem_nil, or_false]
      constructor
      · rintro (rfl | ⟨hx, hn⟩)
        · exact ⟨Or.inl rfl, h⟩
        · exact ⟨Or.inr hx, fun hs => hn (Or.inl hs)⟩
      · rintro ⟨hx | hx, hn⟩
        · exact Or.inl hx
        · by_cases hxt : x = t
          · exact Or.inl hxt
          · exact Or.inr ⟨hx, fun hs => hs.elim hn hxt⟩
  
/-- The de-duplicated list is ordered by first occurrence in the input. -/
theorem pairwise_indexOf_jsSetDedupeAux :
    ∀ (l seen : List String),
      (jsSetDedupeAux seen l).Pairwise
        (fun a b => l.indexOf a < l.indexOf b) := by
  intro l
  induction l with
  | nil => intro seen; simp [jsSetDedupeAux]
  | cons t ts ih =>
    intro seen
    by_cases h : t ∈ seen
    · rw [jsSetDedupeAux, if_pos h]
      refine List.Pairwise.imp_of_mem ?_ (ih seen)
      intro a b ha hb hab
      have ha' := (mem_jsSetDedupeAux a ts seen).1 ha
      have hb' := (mem_jsSetDedupeAux b ts seen).1 hb
      have hat : t ≠ a := fun e => ha'.2 (e ▸ h)
      have hbt : t ≠ b := fun e => hb'.2 (e ▸ h)
      rw [List.indexOf_cons_ne ts hat, List.indexOf_cons_ne ts hbt]
      exact Nat.succ_lt_succ hab
    · rw [jsSetDedupeAux, if_neg h]
      refine List.Pairwise.cons ?_ ?_
      · intro b hb
        have hb' := (mem_jsSetDedupeAux b ts (seen ++ [t])).1 hb
        have hbt : t ≠ b := fun e => hb'.2 (by simp [e])
        rw [List.indexOf_cons_self, List.indexOf_cons_ne ts hbt]
        exact Nat.succ_pos _
      · refine List.Pairwise.imp_of_mem ?_ (ih (seen ++ [t]))
        intro a b ha hb hab
        have ha' := (mem_jsSetDedupeAux a ts (seen ++ [t])).1 ha
        have hb' := (mem_jsSetDedupeAux b ts (seen ++ [t])).1 hb
        have hat : t ≠ a := fun e => ha'.2 (by simp [e])
        have hbt : t ≠ b := fun e => hb'.2 (by simp [e])
        rw [List.indexOf_cons_ne ts hat, List.indexOf_cons_ne ts hbt]
        exact Nat.succ_lt_succ hab

/-- First-occurrence ordering of `Array.from(new Set(l))`. -/
theorem pairwise_indexOf_jsSetDedupe (l : List String) :
    (jsSetDedupe l).Pairwise (fun a b => l.indexOf a < l.indexOf b) :=
  pairwise_indexOf_jsSetDedupeAux l []

/-- `Array.from(new Set(l))` has no duplicates. -/
theorem nodup_jsSetDedupe (l : List String) : (jsSetDedupe l).Nodup :=
  (pairwise_indexOf_jsSetDedupe l).imp
    (fun hab => fun e => Nat.lt_irrefl _ (e ▸ hab))

/-- `JSON.stringify(v, null, 2)` yields a string whenever `v` is not
`undefined`. -/
theorem stringifyTop_isStr (v : JsValue) (h : v.isUndefined = false) :
    (stringifyTop v).isStr = true := by
  cases v <;> simp_all [stringifyTop, jsonStringifyVal, JsValue.isUndefined, JsValue.isStr]

/-- `JSON.stringify(undefined, null, 2)` is `undefined`. -/
theorem stringifyTop_undefined : stringifyTop JsValue.undefined = JsValue.undefined := by
  simp [stringifyTop, jsonStringifyVal]

/-- The guarded items extraction always yields an array value. -/
theorem itemsArray_isUndef (d : JsValue) : (itemsArray d).isUndefined = false := by
  rw [itemsArray]
  cases jsOptMemberV d "items" <;> rfl

/-- A value is `undefined` exactly when `isUndefined` holds. -/
theorem isUndefined_eq_iff (v : JsValue) :
    v.isUndefined = true ↔ v = JsValue.undefined := by
  cases v <;> simp [JsValue.isUndefined]

/-- The cleaned ticker list has no duplicates. -/
theorem cleanedTickers_nodup (tickers : List String) :
    (cleanedTickers tickers).Nodup :=
  (nodup_jsSetDedupe _).sublist (List.take_sublist _ _)

/-- The cleaned ticker list is ordered by first occurrence among the
trimmed-and-uppercased non-empty entries. -/
theorem cleanedTickers_pairwise (tickers : List String) :
    (cleanedTickers tickers).Pairwise (fun a b =>
      ((tickers.map (fun t => jsToUpperAscii (jsTrim t))).filter
        (fun t => decide (t ≠ ""))).indexOf a <
      ((tickers.map (fun t => jsToUpperAscii (jsTrim t))).filter
        (fun t => decide (t ≠ ""))).indexOf b) :=
  (pairwise_indexOf_jsSetDedupe _).sublist (List.take_sublist _ _)

/-- Characters with equal code points are equal. -/
theorem char_eq_of_toNat_eq {c d : Char} (h : c.toNat = d.toNat) : c = d :=
  Char.ext (UInt32.toNat.inj h)

/-- Every character's code point is a Unicode scalar value. -/
theorem char_toNat_lt (c : Char) : c.toNat < 0x110000 := by
  rcases c.valid with h | ⟨h1, h2⟩
  · exact Nat.lt_trans h (by norm_num)
  · exact h2

/-- Code point of `Char.ofNat n` for a valid scalar value. -/
theorem toNat_char_ofNat {n : Nat} (h : Nat.isValidChar n) :
    (Char.ofNat n).toNat = n := by
  simp only [Char.ofNat, h, dif_pos, Char.ofNatAux, Char.toNat, UInt32.toNat,
    BitVec.toNat_ofNatLt]

/-- Hexadecimal digits are distinct. -/
theorem hexUpperDigit_inj : ∀ a < 16, ∀ b < 16,
    hexUpperDigit a = hexUpperDigit b → a = b := by decide

/-- `%XX` escapes are injective on bytes. -/
theorem percentEscape_inj {a b : Nat} (ha : a < 256) (hb : b < 256)
    (h : percentEscape a = percentEscape b) : a = b := by
  rw [percentEscape, percentEscape] at h
  simp only [List.cons.injEq, and_true] at h
  have h1 := hexUpperDigit_inj (a / 16) (by omega) (b / 16) (by omega) h.2.1
  have h2 := hexUpperDigit_inj (a % 16) (by omega) (b % 16) (by omega) h.2.2
  omega

/-- Unreserved bytes are ASCII and are not the percent sign. -/
theorem isUriUnreservedByte_lt {b : Nat} (h : isUriUnreservedByte b = true) :
    b < 0x80 ∧ b ≠ 37 := by
  simp only [isUriUnreservedByte, Bool.or_eq_true, Bool.and_eq_true,
    decide_eq_true_eq] at h
  omega

/-- One encoded byte is never the empty character list. -/
theorem encodeUriByte_ne_nil (b : Nat) : encodeUriByte b ≠ [] := by
  rw [encodeUriByte]
  split <;> simp [percentEscape]

/-- Byte-level percent-encoding is uniquely decodable. -/
theorem encodeUriBytes_inj : ∀ (bs1 bs2 : List Nat),
    (∀ b ∈ bs1, b < 256) → (∀ b ∈ bs2, b < 256) →
    (bs1.map encodeUriByte).flatten = (bs2.map encodeUriByte).flatten →
    bs1 = bs2 := by
  intro bs1
  induction bs1 with
  | nil =>
    intro bs2 _ _ h
    cases bs2 with
    | nil => rfl
    | cons b t =>
      rw [List.map_nil, List.flatten_nil, List.map_cons, List.flatten_cons] at h
      exact absurd (List.append_eq_nil.mp h.symm).1 (encodeUriByte_ne_nil b)
  | cons b1 t1 ih =>
    intro bs2 hb1 hb2 h
    cases bs2 with
    | nil =>
      rw [List.map_nil, List.flatten_nil, List.map_cons, List.flatten_cons] at h
      exact absurd (List.append_eq_nil.mp h).1 (encodeUriByte_ne_nil b1)
    | cons b2 t2 =>
      rw [List.map_cons, List.flatten_cons, List.map_cons, List.flatten_cons] at h
      have hlt1 : b1 < 256 := hb1 b1 (List.mem_cons_self _ _)
      have hlt2 : b2 < 256 := hb2 b2 (List.mem_cons_self _ _)
      have hval1 : Nat.isValidChar b1 := Or.inl (by omega)
      have hval2 : Nat.isValidChar b2 := Or.inl (by omega)
      rw [encodeUriByte, encodeUriByte] at h
      by_cases hu1 : isUriUnreservedByte b1 = true
      · by_cases hu2 : isUriUnreservedByte b2 = true
        · rw [if_pos hu1, if_pos hu2] at h
          simp only [List.cons_append, List.nil_append, List.cons.injEq] at h
          have hbb : b1 = b2 := by
            have := congrArg Char.toNat h.1
            rwa [toNat_char_ofNat hval1, toNat_char_ofNat hval2] at this
          have ht := ih t2 (fun x hx => hb1 x (List.mem_cons_of_mem _ hx))
            (fun x hx => hb2 x (List.mem_cons_of_mem _ hx)) h.2
          rw [hbb, ht]
        · rw [if_pos hu1, if_neg hu2, percentEscape] at h
          simp only [List.cons_append, List.nil_append, List.cons.injEq] at h
          have hc : b1 = 37 := by
            have := congrArg Char.toNat h.1
            rwa [toNat_char_ofNat hval1, toNat_char_ofNat (Or.inl (by omega))]
              at this
          exact absurd hc (isUriUnreservedByte_lt hu1).2
      · by_cases hu2 : isUriUnreservedByte b2 = true
        · rw [if_neg hu1, if_pos hu2, percentEscape] at h
          simp only [List.cons_append, List.nil_append, List.cons.injEq] at h
          have hc : b2 = 37 := by
            have := congrArg Char.toNat h.1.symm
            rwa [toNat_char_ofNat hval2, toNat_char_ofNat (Or.inl (by omega))]
              at this
          exact absurd hc (isUriUnreservedByte_lt hu2).2
        · rw [if_neg hu1, if_neg hu2] at h
          rw [percentEscape, percentEscape] at h
          simp only [List.cons_append, List.nil_append, List.cons.injEq] at h
          have hbb : b1 = b2 := by
            refine percentEscape_inj hlt1 hlt2 ?_
            rw [percentEscape, percentEscape]
            simp only [List.cons.injEq, and_true]
            exact ⟨trivial, h.2.1, h.2.2.1⟩
          have ht := ih t2 (fun x hx => hb1 x (List.mem_cons_of_mem _ hx))
            (fun x hx => hb2 x (List.mem_cons_of_mem _ hx)) h.2.2.2
          rw [hbb, ht]

/-- UTF-8 bytes fit in one byte. -/
theorem utf8Bytes_lt_256 (c : Char) : ∀ b ∈ utf8Bytes c, b < 256 := by
  intro b hb
  have hc := char_toNat_lt c
  rw [utf8Bytes] at hb
  repeat' split at hb
  all_goals simp only [List.mem_cons, List.not_mem_nil, or_false] at hb
  all_goals omega

/-- The UTF-8 encoding of a character is never empty. -/
theorem utf8Bytes_ne_nil (c : Char) : utf8Bytes c ≠ [] := by
  rw [utf8Bytes]
  repeat' split
  all_goals simp

/-- UTF-8 encodings are prefix-determined: equal encoded streams start
with equal characters. -/
theorem utf8Bytes_head_inj (c1 c2 : Char) (r1 r2 : List Nat)
    (h : utf8Bytes c1 ++ r1 = utf8Bytes c2 ++ r2) : c1 = c2 ∧ r1 = r2 := by
  have hv1 := char_toNat_lt c1
  have hv2 := char_toNat_lt c2
  rw [utf8Bytes, utf8Bytes] at h
  repeat' split at h
  all_goals simp only [List.cons_append, List.nil_append, List.cons.injEq] at h
  all_goals try (exfalso; omega)
  · exact ⟨char_eq_of_toNat_eq h.1, h.2⟩
  · exact ⟨char_eq_of_toNat_eq (by omega), h.2.2⟩
  · exact ⟨char_eq_of_toNat_eq (by omega), h.2.2.2⟩
  · exact ⟨char_eq_of_toNat_eq (by omega), h.2.2.2.2⟩

/-- UTF-8 encoding of character sequences is injective. -/
theorem utf8List_inj : ∀ (l1 l2 : List Char),
    (l1.map utf8Bytes).flatten = (l2.map utf8Bytes).flatten → l1 = l2 := by
  intro l1
  induction l1 with
  | nil =>
    intro l2 h
    cases l2 with
    | nil => rfl
    | cons c t =>
      rw [List.map_nil, List.flatten_nil, List.map_cons, List.flatten_cons] at h
      exact absurd (List.append_eq_nil.mp h.symm).1 (utf8Bytes_ne_nil c)
  | cons c1 t1 ih =>
    intro l2 h
    cases l2 with
    | nil =>
      rw [List.map_nil, List.flatten_nil, List.map_cons, List.flatten_cons] at h
      exact absurd (List.append_eq_nil.mp h).1 (utf8Bytes_ne_nil c1)
    | cons c2 t2 =>
      rw [List.map_cons, List.flatten_cons, List.map_cons, List.flatten_cons] at h
      obtain ⟨hc, hr⟩ := utf8Bytes_head_inj c1 c2 _ _ h
      rw [hc, ih t2 hr]

/-- Per-character encoding flattens to per-byte encoding. -/
theorem flatten_map_flatten {α β γ : Type} (f : α → List β) (g : γ → List α) :
    ∀ l : List γ,
      (l.map (fun c => ((g c).map f).flatten)).flatten =
        (((l.map g).flatten).map f).flatten := by
  intro l
  induction l with
  | nil => rfl
  | cons c t ih =>
    rw [List.map_cons, List.flatten_cons, List.map_cons, List.flatten_cons,
      List.map_append, List.flatten_append, ih]

/-- `encodeURIComponent` is injective: distinct inputs have distinct
encodings. -/
theorem encodeURIComponent_injective (s t : String)
    (h : encodeURIComponent s = encodeURIComponent t) : s = t := by
  have hd : (s.data.map (fun c => ((utf8Bytes c).map encodeUriByte).flatten)).flatten =
      (t.data.map (fun c => ((utf8Bytes c).map encodeUriByte).flatten)).flatten :=
    congrArg String.data h
  rw [flatten_map_flatten, flatten_map_flatten] at hd
  have hb : (s.data.map utf8Bytes).flatten = (t.data.map utf8Bytes).flatten := by
    refine encodeUriBytes_inj _ _ ?_ ?_ hd
    · intro b hb
      obtain ⟨bs, hbs, hbb⟩ := List.mem_flatten.mp hb
      obtain ⟨c, _, rfl⟩ := List.mem_map.mp hbs
      exact utf8Bytes_lt_256 c b hbb
    · intro b hb
      obtain ⟨bs, hbs, hbb⟩ := List.mem_flatten.mp hb
      obtain ⟨c, _, rfl⟩ := List.mem_map.mp hbs
      exact utf8Bytes_lt_256 c b hbb
  exact String.ext (utf8List_inj _ _ hb)

/-- Prefixing with `tickers=` and percent-encoding is injective. -/
theorem tickersEntry_inj (a b : String)
    (h : "tickers=" ++ encodeURIComponent a =
         "tickers=" ++ encodeURIComponent b) : a = b := by
  refine encodeURIComponent_injective a b ?_
  have hd : ("tickers=" : String).data ++ (encodeURIComponent a).data =
      ("tickers=" : String).data ++ (encodeURIComponent b).data := by
    have := congrArg String.data h
    simpa [String.data_append] using this
  exact String.ext (List.append_cancel_left hd)

/-- Splitting a string literal across an append. -/
theorem append_split (p q r x : String) (h : p = q ++ r) :
    p ++ x = q ++ (r ++ x) := by
  rw [h, String.append_assoc]

/-- C4: for every `ingest_from_finnhub` input whose cleaned ticker list is
empty, the handler issues no backend request at all and returns a Reply
whose text is exactly "No valid tickers provided.". -/
theorem ingest_empty_short_circuit (tickers : List String)
    (h : cleanedTickers tickers = []) :
    requestsOf (Invocation.ingestFromFinnhub tickers) = [] ∧
    ∀ res : BackendResponse,
      replyOf (Invocation.ingestFromFinnhub tickers) res =
        Except.ok (singleTextReply (JsValue.str "No valid tickers provided.")) := by
  constructor
  · simp [requestsOf, h]
  · intro res
    simp [replyOf, ingestFromFinnhub_reply, h]

theorem ingest_empty_short_circuit_witness :
    cleanedTickers ["   ", ""] = [] ∧
    (requestsOf (Invocation.ingestFromFinnhub ["   ", ""]) = [] ∧
     ∀ res : BackendResponse,
       replyOf (Invocation.ingestFromFinnhub ["   ", ""]) res =
         Except.ok (singleTextReply (JsValue.str "No valid tickers provided."))) :=
  ⟨by decide, ingest_empty_short_circuit ["   ", ""] (by decide)⟩

/-- C2 counterexample: a whitespace-only (but non-empty, non-slash) base
address does not put the session into degraded mode — all six normal tools
are registered and `config_error` is not. -/
theorem config_error_whitespace_counterexample :
    registeredTools " " ≠ ["config_error"] ∧
    "config_error" ∉ registeredTools " " ∧
    registeredTools " " = normalToolNames := by
  refine ⟨by decide, by decide, by decide⟩

/-- C2 (amended): for every session whose configured base address
normalizes to empty after stripping trailing path separators (so the
address is empty or consists only of slashes — a merely whitespace-only
address does not qualify), exactly one tool, `config_error`, is
registered; invoking it with any arguments returns the fixed
misconfiguration diagnostic, and it issues no backend request. -/
theorem config_error_degraded (apiBase : String)
    (h : stripTrailingSlashes apiBase = "") :
    registeredTools apiBase = ["config_error"] ∧
    (∀ args : List (String × JsValue),
      configErrorHandlerFn args =
        singleTextReply (JsValue.str
          "Missing API_BASE env var. Set it in wrangler.jsonc under \x27vars\x27.")) ∧
    requestsOf Invocation.configError = [] := by
  exact ⟨by simp [registeredTools, h], fun args => rfl, rfl⟩

theorem config_error_degraded_witness :
    stripTrailingSlashes "/" = "" ∧
    (registeredTools "/" = ["config_error"] ∧
     (∀ args : List (String × JsValue),
       configErrorHandlerFn args =
         singleTextReply (JsValue.str
           "Missing API_BASE env var. Set it in wrangler.jsonc under \x27vars\x27.")) ∧
     requestsOf Invocation.configError = []) :=
  ⟨by decide, config_error_degraded "/" (by decide)⟩

/-- C8: every tool invocation issues exactly one outbound HTTP request,
except the two zero-request cases (`ingest_from_finnhub` with an empty
cleaned list, and `config_error`); no handler ever issues two or more. -/
theorem one_request_per_invocation (inv : Invocation) :
    (requestsOf inv).length =
      (match inv with
       | .ingestFromFinnhub ts => if cleanedTickers ts = [] then 0 else 1
       | .configError => 0
       | _ => 1) := by
  cases inv with
  | ingestFromFinnhub ts =>
    by_cases h : cleanedTickers ts = [] <;> simp [requestsOf, h]
  | _ => rfl

/-- C9: every outbound GET request built by any tool handler carries the
cache bypass directive (`cacheTtl 0`, `cacheEverything false`) and the
`no-store` cache-control header. -/
theorem get_requests_disable_caching (inv : Invocation) (req : BackendRequest)
    (hmem : req ∈ requestsOf inv) (hget : req.method = "GET") :
    req.cf = some { cacheTtl := 0, cacheEverything := false } ∧
    ("cache-control", "no-store") ∈ req.headers := by
  cases inv with
  | listUniverse s l =>
    rw [requestsOf, List.mem_singleton] at hmem
    subst hmem
    exact ⟨rfl, List.mem_singleton.mpr rfl⟩
  | explainUniverse k u =>
    rw [requestsOf, List.mem_singleton] at hmem
    subst hmem
    rw [show (explainUniverse_request k u).method = "POST" from rfl] at hget
    exact absurd hget (by decide)
  | getAssetDetails t =>
    rw [requestsOf, List.mem_singleton] at hmem
    subst hmem
    exact ⟨rfl, List.mem_singleton.mpr rfl⟩
  | searchAssets q l =>
    rw [requestsOf, List.mem_singleton] at hmem
    subst hmem
    exact ⟨rfl, List.mem_singleton.mpr rfl⟩
  | ingestFromFinnhub ts =>
    rw [requestsOf] at hmem
    split at hmem
    · exact absurd hmem (List.not_mem_nil req)
    · rw [List.mem_singleton] at hmem
      subst hmem
      exact ⟨rfl, List.mem_singleton.mpr rfl⟩
  | runFundamentals t =>
    rw [requestsOf, List.mem_singleton] at hmem
    subst hmem
    exact ⟨rfl, List.mem_singleton.mpr rfl⟩
  | configError =>
    exact absurd hmem (List.not_mem_nil req)

theorem get_requests_disable_caching_witness :
    listUniverse_request none 100 ∈ requestsOf (Invocation.listUniverse none 100) ∧
    (listUniverse_request none 100).method = "GET" ∧
    ((listUniverse_request none 100).cf =
       some { cacheTtl := 0, cacheEverything := false } ∧
     ("cache-control", "no-store") ∈ (listUniverse_request none 100).headers) :=
  ⟨List.mem_singleton.mpr rfl, rfl,
   get_requests_disable_caching (Invocation.listUniverse none 100) _
     (List.mem_singleton.mpr rfl) rfl⟩

/-- C3: for every valid `ingest_from_finnhub` input with a non-empty
cleaned list, the handler issues one GET to `/ingest/finnhub` whose query
string is one percent-encoded `tickers=` parameter per cleaned entry (the
cleaning being trim, ASCII-uppercase, drop empties, dedupe, truncate to
50); in particular `["aapl","AAPL"," msft "]` yields exactly
`tickers=AAPL&tickers=MSFT`. -/
theorem ingest_dedup_query (tickers : List String)
    (_h1 : 1 ≤ tickers.length) (_h2 : tickers.length ≤ 50)
    (h3 : cleanedTickers tickers ≠ []) :
    requestsOf (Invocation.ingestFromFinnhub tickers) =
      [{ method := "GET", path := "/ingest/finnhub",
         queryString := String.intercalate "&"
           ((cleanedTickers tickers).map
             (fun t => "tickers=" ++ encodeURIComponent t)),
         headers := noStoreHeaders, cf := some bypassCf, body := none }] ∧
    cleanedTickers ["aapl", "AAPL", " msft "] = ["AAPL", "MSFT"] ∧
    (ingestFromFinnhub_request ["aapl", "AAPL", " msft "]).queryString =
      "tickers=AAPL&tickers=MSFT" := by
  refine ⟨?_, by decide, by decide⟩
  simp [requestsOf, h3, ingestFromFinnhub_request, ingestFromFinnhub_qs]

theorem ingest_dedup_query_witness :
    1 ≤ (["aapl", "AAPL", " msft "] : List String).length ∧
    (["aapl", "AAPL", " msft "] : List String).length ≤ 50 ∧
    cleanedTickers ["aapl", "AAPL", " msft "] ≠ [] ∧
    (requestsOf (Invocation.ingestFromFinnhub ["aapl", "AAPL", " msft "]) =
      [{ method := "GET", path := "/ingest/finnhub",
         queryString := String.intercalate "&"
           ((cleanedTickers ["aapl", "AAPL", " msft "]).map
             (fun t => "tickers=" ++ encodeURIComponent t)),
         headers := noStoreHeaders, cf := some bypassCf, body := none }] ∧
     cleanedTickers ["aapl", "AAPL", " msft "] = ["AAPL", "MSFT"] ∧
     (ingestFromFinnhub_request ["aapl", "AAPL", " msft "]).queryString =
       "tickers=AAPL&tickers=MSFT") :=
  ⟨by decide, by decide, by decide,
   ingest_dedup_query ["aapl", "AAPL", " msft "]
     (by decide) (by decide) (by decide)⟩

/-- C10: the cleaned tickers appear in the query in the order of each
value's first occurrence among the trimmed-and-uppercased non-empty
entries (deduplication keeps the first occurrence), the query string is
one `tickers=` entry per cleaned ticker, and — `encodeURIComponent` being
injective — it contains no duplicate `tickers=` values. -/
theorem ingest_query_order (tickers : List String)
    (_h1 : 1 ≤ tickers.length) (_h2 : tickers.length ≤ 50) :
    (cleanedTickers tickers).Nodup ∧
    ((cleanedTickers tickers).map
      (fun t => "tickers=" ++ encodeURIComponent t)).Nodup ∧
    (cleanedTickers tickers).Pairwise (fun a b =>
      ((tickers.map (fun t => jsToUpperAscii (jsTrim t))).filter
        (fun t => decide (t ≠ ""))).indexOf a <
      ((tickers.map (fun t => jsToUpperAscii (jsTrim t))).filter
        (fun t => decide (t ≠ ""))).indexOf b) ∧
    (cleanedTickers tickers ≠ [] →
      (ingestFromFinnhub_request tickers).queryString =
        String.intercalate "&" ((cleanedTickers tickers).map
          (fun t => "tickers=" ++ encodeURIComponent t))) :=
  ⟨cleanedTickers_nodup tickers,
   (cleanedTickers_nodup tickers).map_on
     (fun x _ y _ hxy => tickersEntry_inj x y hxy),
   cleanedTickers_pairwise tickers, fun _ => rfl⟩

theorem ingest_query_order_witness :
    1 ≤ (["aapl", "aapl", "msft"] : List String).length ∧
    (["aapl", "aapl", "msft"] : List String).length ≤ 50 ∧
    ((cleanedTickers ["aapl", "aapl", "msft"]).Nodup ∧
     ((cleanedTickers ["aapl", "aapl", "msft"]).map
       (fun t => "tickers=" ++ encodeURIComponent t)).Nodup ∧
     (cleanedTickers ["aapl", "aapl", "msft"]).Pairwise (fun a b =>
       (((["aapl", "aapl", "msft"] : List String).map
           (fun t => jsToUpperAscii (jsTrim t))).filter
         (fun t => decide (t ≠ ""))).indexOf a <
       (((["aapl", "aapl", "msft"] : List String).map
           (fun t => jsToUpperAscii (jsTrim t))).filter
         (fun t => decide (t ≠ ""))).indexOf b) ∧
     (cleanedTickers ["aapl", "aapl", "msft"] ≠ [] →
       (ingestFromFinnhub_request ["aapl", "aapl", "msft"]).queryString =
         String.intercalate "&" ((cleanedTickers ["aapl", "aapl", "msft"]).map
           (fun t => "tickers=" ++ encodeURIComponent t)))) :=
  ⟨by decide, by decide,
   ingest_query_order ["aapl", "aapl", "msft"] (by decide) (by decide)⟩

/-- C5: the `list_universe` GET always carries `limit`; it carries
`sector` (set to the trimmed value) exactly when `sector` was provided and
is non-blank after trimming; a call with `limit=100` and no sector builds
the query string `limit=100`, and `sector=" Tech "` sets `sector=Tech`. -/
theorem list_universe_query_params (sector : Option String) (limit : Nat)
    (_h1 : 1 ≤ limit) (_h2 : limit ≤ 500) :
    (listUniverse_request sector limit).method = "GET" ∧
    (listUniverse_request sector limit).path = "/universe" ∧
    ("limit", toString limit) ∈ listUniverse_params sector limit ∧
    (∀ v, ("sector", v) ∈ listUniverse_params sector limit ↔
      ∃ s, sector = some s ∧ jsTrim s ≠ "" ∧ v = jsTrim s) ∧
    (listUniverse_request none 100).queryString = "limit=100" ∧
    (listUniverse_request (some " Tech ") 100).queryString =
      "limit=100&sector=Tech" := by
  refine ⟨rfl, rfl, ?_, ?_, by decide, by decide⟩
  · cases sector with
    | none => exact List.mem_singleton.mpr rfl
    | some s =>
      by_cases h : s ≠ "" ∧ jsTrim s ≠ ""
      · rw [listUniverse_params, if_pos h]
        exact List.mem_cons_self _ _
      · rw [listUniverse_params, if_neg h]
        exact List.mem_singleton.mpr rfl
  · intro v
    cases sector with
    | none =>
      constructor
      · intro hv
        rw [listUniverse_params, List.mem_singleton] at hv
        have hfst : ("sector" : String) = "limit" := congrArg Prod.fst hv
        exact absurd hfst (by decide)
      · rintro ⟨s, hs, _⟩
        exact Option.noConfusion hs
    | some s =>
      by_cases h : s ≠ "" ∧ jsTrim s ≠ ""
      · rw [listUniverse_params, if_pos h]
        constructor
        · intro hv
          rcases List.mem_append.mp hv with hv | hv
          · rw [List.mem_singleton] at hv
            have hfst : ("sector" : String) = "limit" := congrArg Prod.fst hv
            exact absurd hfst (by decide)
          · rw [List.mem_singleton] at hv
            exact ⟨s, rfl, h.2, congrArg Prod.snd hv⟩
        · rintro ⟨s', hs', -, rfl⟩
          cases hs'
          exact List.mem_append.mpr (Or.inr (List.mem_singleton.mpr rfl))
      · rw [listUniverse_params, if_neg h]
        constructor
        · intro hv
          rw [List.mem_singleton] at hv
          have hfst : ("sector" : String) = "limit" := congrArg Prod.fst hv
          exact absurd hfst (by decide)
        · rintro ⟨s', hs', htrim, -⟩
          cases hs'
          refine absurd ?_ h
          refine ⟨fun he => htrim ?_, htrim⟩
          rw [he]
          rfl

theorem list_universe_query_params_witness :
    1 ≤ 100 ∧ 100 ≤ 500 ∧
    ((listUniverse_request (some " Tech ") 100).method = "GET" ∧
     (listUniverse_request (some " Tech ") 100).path = "/universe" ∧
     ("limit", toString 100) ∈ listUniverse_params (some " Tech ") 100 ∧
     (∀ v, ("sector", v) ∈ listUniverse_params (some " Tech ") 100 ↔
       ∃ s, (some " Tech " : Option String) = some s ∧ jsTrim s ≠ "" ∧ v = jsTrim s) ∧
     (listUniverse_request none 100).queryString = "limit=100" ∧
     (listUniverse_request (some " Tech ") 100).queryString =
       "limit=100&sector=Tech") :=
  ⟨by decide, by decide,
   list_universe_query_params (some " Tech ") 100 (by decide) (by decide)⟩

/-- C1: for every tool that issues a backend call, on a non-2xx response
the handler returns normally with a single text block naming the tool's
backend path and the numeric status code; for exactly
`ingest_from_finnhub` and `run_fundamentals` the text additionally ends
with the first at-most-200 characters of the raw body (exactly 200 when
the body is longer). -/
theorem backend_failure_reply (inv : Invocation) (res : BackendResponse)
    (hcall : requestsOf inv ≠ []) (hfail : resOk res.status = false) :
    ∃ t : String,
      t = (match inv with
        | .listUniverse _ _ => "Backend /universe failed: " ++ toString res.status
        | .explainUniverse _ _ => "Backend /explain failed: " ++ toString res.status
        | .getAssetDetails _ => "Backend /asset failed: " ++ toString res.status
        | .searchAssets _ _ => "Backend /search failed: " ++ toString res.status
        | .ingestFromFinnhub _ =>
            "Backend /ingest/finnhub " ++ toString res.status ++ ": " ++
              jsSlice0 res.bodyText 200
        | .runFundamentals _ =>
            "Backend /analyze/fundamentals " ++ toString res.status ++ ": " ++
              jsSlice0 res.bodyText 200
        | .configError => "") ∧
      replyOf inv res = Except.ok (singleTextReply (JsValue.str t)) ∧
      (∃ a b, t = a ++ inv.backendPathName ++ b) ∧
      (∃ a b, t = a ++ toString res.status ++ b) ∧
      (inv.includesBodyExcerpt = true →
        (∃ a, t = a ++ jsSlice0 res.bodyText 200) ∧
        (jsSlice0 res.bodyText 200).length = min 200 res.bodyText.length) := by
  cases inv with
  | listUniverse s l =>
    refine ⟨"Backend /universe failed: " ++ toString res.status, rfl, ?_, ?_, ?_, ?_⟩
    · simp [replyOf, listUniverse_reply, hfail]
    · exact ⟨"Backend ", " failed: " ++ toString res.status,
        append_split _ ("Backend " ++ "/universe") " failed: " _ (by decide)⟩
    · exact ⟨"Backend /universe failed: ", "", (String.append_empty _).symm⟩
    · intro h; simp [Invocation.includesBodyExcerpt] at h
  | explainUniverse k u =>
    refine ⟨"Backend /explain failed: " ++ toString res.status, rfl, ?_, ?_, ?_, ?_⟩
    · simp [replyOf, explainUniverse_reply, hfail]
    · exact ⟨"Backend ", " failed: " ++ toString res.status,
        append_split _ ("Backend " ++ "/explain") " failed: " _ (by decide)⟩
    · exact ⟨"Backend /explain failed: ", "", (String.append_empty _).symm⟩
    · intro h; simp [Invocation.includesBodyExcerpt] at h
  | getAssetDetails tk =>
    refine ⟨"Backend /asset failed: " ++ toString res.status, rfl, ?_, ?_, ?_, ?_⟩
    · simp [replyOf, getAssetDetails_reply, hfail]
    · exact ⟨"Backend ", " failed: " ++ toString res.status,
        append_split _ ("Backend " ++ "/asset") " failed: " _ (by decide)⟩
    · exact ⟨"Backend /asset failed: ", "", (String.append_empty _).symm⟩
    · intro h; simp [Invocation.includesBodyExcerpt] at h
  | searchAssets q l =>
    refine ⟨"Backend /search failed: " ++ toString res.status, rfl, ?_, ?_, ?_, ?_⟩
    · simp [replyOf, searchAssets_reply, hfail]
    · exact ⟨"Backend ", " failed: " ++ toString res.status,
        append_split _ ("Backend " ++ "/search") " failed: " _ (by decide)⟩
    · exact ⟨"Backend /search failed: ", "", (String.append_empty _).symm⟩
    · intro h; simp [Invocation.includesBodyExcerpt] at h
  | ingestFromFinnhub ts =>
    have hc : cleanedTickers ts ≠ [] := by
      intro hc
      rw [requestsOf, if_pos hc] at hcall
      exact hcall rfl
    refine ⟨"Backend /ingest/finnhub " ++ toString res.status ++ ": " ++
      jsSlice0 res.bodyText 200, rfl, ?_, ?_, ?_, ?_⟩
    · simp [replyOf, ingestFromFinnhub_reply, hc, hfail]
    · refine ⟨"Backend ", " " ++ toString res.status ++ ": " ++
        jsSlice0 res.bodyText 200, ?_⟩
      rw [(by decide :
        ("Backend /ingest/finnhub " : String) =
          ("Backend " ++ "/ingest/finnhub") ++ " ")]
      simp only [String.append_assoc]
      rfl
    · refine ⟨"Backend /ingest/finnhub ", ": " ++ jsSlice0 res.bodyText 200, ?_⟩
      simp only [String.append_assoc]
    · intro _
      exact ⟨⟨"Backend /ingest/finnhub " ++ toString res.status ++ ": ", rfl⟩,
        List.length_take 200 res.bodyText.data⟩
  | runFundamentals tk =>
    refine ⟨"Backend /analyze/fundamentals " ++ toString res.status ++ ": " ++
      jsSlice0 res.bodyText 200, rfl, ?_, ?_, ?_, ?_⟩
    · simp [replyOf, runFundamentals_reply, hfail]
    · refine ⟨"Backend ", " " ++ toString res.status ++ ": " ++
        jsSlice0 res.bodyText 200, ?_⟩
      rw [(by decide :
        ("Backend /analyze/fundamentals " : String) =
          ("Backend " ++ "/analyze/fundamentals") ++ " ")]
      simp only [String.append_assoc]
      rfl
    · refine ⟨"Backend /analyze/fundamentals ", ": " ++ jsSlice0 res.bodyText 200, ?_⟩
      simp only [String.append_assoc]
    · intro _
      exact ⟨⟨"Backend /analyze/fundamentals " ++ toString res.status ++ ": ", rfl⟩,
        List.length_take 200 res.bodyText.data⟩
  | configError =>
    exact absurd rfl hcall

theorem backend_failure_reply_witness :
    requestsOf (Invocation.searchAssets "x" 10) ≠ [] ∧
    resOk 500 = false ∧
    (∃ t : String,
      t = "Backend /search failed: " ++ toString (500 : Nat) ∧
      replyOf (Invocation.searchAssets "x" 10) ⟨500, "b", JsValue.obj []⟩ =
        Except.ok (singleTextReply (JsValue.str t)) ∧
      (∃ a b, t = a ++ "/search" ++ b) ∧
      (∃ a b, t = a ++ toString (500 : Nat) ++ b) ∧
      ((Invocation.searchAssets "x" 10).includesBodyExcerpt = true →
        (∃ a, t = a ++ jsSlice0 "b" 200) ∧
        (jsSlice0 "b" 200).length = min 200 ("b" : String).length)) :=
  ⟨by simp [requestsOf], by decide,
   backend_failure_reply (Invocation.searchAssets "x" 10) ⟨500, "b", JsValue.obj []⟩
     (by simp [requestsOf]) (by decide)⟩

/-- C6 counterexample: with `{"rationale": null}` on a 2xx response, the
`rationale` field is present (value `null`) yet the reply text is the
string "No rationale." — not the field's value, because `??` also
replaces `null`. -/
theorem explain_rationale_null_counterexample :
    jsOptMemberV (JsValue.obj [("rationale", JsValue.null)]) "rationale" =
      JsValue.null ∧
    replyOf (Invocation.explainUniverse 3 [])
        ⟨200, "", JsValue.obj [("rationale", JsValue.null)]⟩ =
      Except.ok (singleTextReply (JsValue.str "No rationale.")) ∧
    JsValue.str "No rationale." ≠ JsValue.null :=
  ⟨rfl, rfl, fun h => JsValue.noConfusion h⟩

/-- C6 (amended): every validated `explain_universe` call issues one POST
to `/explain` with JSON body `{risk, universe}`; on a 2xx response the
reply text is the response's `rationale` field, or exactly "No rationale."
when that field is absent, `null`, or `undefined` (in particular for the
response body `{}`). -/
theorem explain_universe_contract (risk : Int) (univ : List String)
    (res : BackendResponse) (hok : resOk res.status = true) :
    requestsOf (Invocation.explainUniverse risk univ) =
      [{ method := "POST", path := "/explain", queryString := "",
         headers := [("content-type", "application/json")], cf := none,
         body := some (JsValue.obj
           [("risk", JsValue.num risk),
            ("universe", JsValue.arr (univ.map JsValue.str))]) }] ∧
    (jsNullish (jsOptMemberV res.bodyJson "rationale") = false →
      replyOf (Invocation.explainUniverse risk univ) res =
        Except.ok (singleTextReply (jsOptMemberV res.bodyJson "rationale"))) ∧
    (jsNullish (jsOptMemberV res.bodyJson "rationale") = true →
      replyOf (Invocation.explainUniverse risk univ) res =
        Except.ok (singleTextReply (JsValue.str "No rationale."))) ∧
    replyOf (Invocation.explainUniverse risk univ) ⟨200, "", JsValue.obj []⟩ =
      Except.ok (singleTextReply (JsValue.str "No rationale.")) := by
  refine ⟨rfl, ?_, ?_, rfl⟩
  · intro h
    simp [replyOf, explainUniverse_reply, hok, jsCoalesce, h]
  · intro h
    simp [replyOf, explainUniverse_reply, hok, jsCoalesce, h]

theorem explain_universe_contract_witness :
    resOk 200 = true ∧
    (requestsOf (Invocation.explainUniverse 3 ["AAPL"]) =
      [{ method := "POST", path := "/explain", queryString := "",
         headers := [("content-type", "application/json")], cf := none,
         body := some (JsValue.obj
           [("risk", JsValue.num 3),
            ("universe", JsValue.arr (["AAPL"].map JsValue.str))]) }] ∧
     (jsNullish (jsOptMemberV (JsValue.obj [("rationale", JsValue.str "ok")])
        "rationale") = false →
       replyOf (Invocation.explainUniverse 3 ["AAPL"])
           ⟨200, "", JsValue.obj [("rationale", JsValue.str "ok")]⟩ =
         Except.ok (singleTextReply
           (jsOptMemberV (JsValue.obj [("rationale", JsValue.str "ok")])
             "rationale"))) ∧
     (jsNullish (jsOptMemberV (JsValue.obj [("rationale", JsValue.str "ok")])
        "rationale") = true →
       replyOf (Invocation.explainUniverse 3 ["AAPL"])
           ⟨200, "", JsValue.obj [("rationale", JsValue.str "ok")]⟩ =
         Except.ok (singleTextReply (JsValue.str "No rationale."))) ∧
     replyOf (Invocation.explainUniverse 3 ["AAPL"]) ⟨200, "", JsValue.obj []⟩ =
       Except.ok (singleTextReply (JsValue.str "No rationale."))) :=
  ⟨by decide,
   explain_universe_contract 3 ["AAPL"]
     ⟨200, "", JsValue.obj [("rationale", JsValue.str "ok")]⟩ (by decide)⟩

/-- C7 counterexample: `get_asset_details` on a 2xx response whose body is
`{}` (no `item` field) returns a single text block whose payload is the
`undefined` value, not a string (`JSON.stringify(undefined)` is
`undefined`). -/
theorem reply_payload_undefined_counterexample :
    replyOf (Invocation.getAssetDetails "AAPL") ⟨200, "", JsValue.obj []⟩ =
      Except.ok { content := [{ type := "text", text := JsValue.undefined }] } ∧
    JsValue.isStr JsValue.undefined = false := by
  constructor
  · simp [replyOf, getAssetDetails_reply, resOk, jsMember, stringifyTop,
      jsonStringifyVal, singleTextReply]
  · rfl

/-- C7 (amended): every handler that returns does so with exactly one
content block whose type tag is "text"; the payload is a string except
when `get_asset_details` gets a 2xx body without an `item` field (payload
`undefined`) and when `explain_universe` gets a 2xx body whose `rationale`
is present, non-nullish and not a string (payload is that value); the
only handler that can throw is `get_asset_details`, on a 2xx response
whose body is JSON `null`. -/
theorem reply_single_text_block (inv : Invocation) (res : BackendResponse)
    (hjson : res.bodyJson.isUndefined = false) :
    (∀ e, replyOf inv res = Except.error e →
       (∃ tk, inv = Invocation.getAssetDetails tk) ∧
       resOk res.status = true ∧ res.bodyJson = JsValue.null) ∧
    (∀ r, replyOf inv res = Except.ok r →
       ∃ v, r.content = [{ type := "text", text := v }] ∧
         (v.isStr = true ∨
          ((∃ tk, inv = Invocation.getAssetDetails tk) ∧
            resOk res.status = true ∧ v = JsValue.undefined) ∨
          ((∃ k u, inv = Invocation.explainUniverse k u) ∧
            resOk res.status = true ∧
            jsOptMemberV res.bodyJson "rationale" = v ∧ v.isStr = false))) := by
  cases inv with
  | listUniverse s l =>
    refine ⟨fun e he => Except.noConfusion he, fun r hr => ?_⟩
    rw [replyOf] at hr
    injection hr with hr
    subst hr
    rw [listUniverse_reply]
    by_cases ho : resOk res.status = true
    · rw [if_pos ho]
      exact ⟨_, rfl, Or.inl (stringifyTop_isStr _ (itemsArray_isUndef _))⟩
    · rw [if_neg ho]
      exact ⟨_, rfl, Or.inl rfl⟩
  | searchAssets q l =>
    refine ⟨fun e he => Except.noConfusion he, fun r hr => ?_⟩
    rw [replyOf] at hr
    injection hr with hr
    subst hr
    rw [searchAssets_reply]
    by_cases ho : resOk res.status = true
    · rw [if_pos ho]
      exact ⟨_, rfl, Or.inl (stringifyTop_isStr _ (itemsArray_isUndef _))⟩
    · rw [if_neg ho]
      exact ⟨_, rfl, Or.inl rfl⟩
  | explainUniverse k u =>
    refine ⟨fun e he => Except.noConfusion he, fun r hr => ?_⟩
    rw [replyOf] at hr
    injection hr with hr
    subst hr
    rw [explainUniverse_reply]
    by_cases ho : resOk res.status = true
    · rw [if_pos ho, jsCoalesce]
      by_cases hn : jsNullish (jsOptMemberV res.bodyJson "rationale") = true
      · rw [if_pos hn]
        exact ⟨_, rfl, Or.inl rfl⟩
      · rw [if_neg hn]
        by_cases hs : (jsOptMemberV res.bodyJson "rationale").isStr = true
        · exact ⟨_, rfl, Or.inl hs⟩
        · exact ⟨_, rfl, Or.inr (Or.inr ⟨⟨k, u, rfl⟩, ho, rfl,
            Bool.eq_false_iff.mpr hs⟩)⟩
    · rw [if_neg ho]
      exact ⟨_, rfl, Or.inl rfl⟩
  | getAssetDetails tk =>
    rw [replyOf, getAssetDetails_reply]
    by_cases ho : resOk res.status = true
    · rw [if_pos ho]
      cases hb : res.bodyJson with
      | undefined => rw [hb] at hjson; exact absurd hjson (by simp [JsValue.isUndefined])
      | null =>
        rw [jsMember]
        exact ⟨fun e _ => ⟨⟨tk, rfl⟩, ho, rfl⟩, fun r hr => Except.noConfusion hr⟩
      | obj fields =>
        rw [jsMember]
        refine ⟨fun e he => Except.noConfusion he, fun r hr => ?_⟩
        injection hr with hr
        subst hr
        by_cases hu : ((fields.lookup "item").getD JsValue.undefined).isUndefined = true
        · rw [(isUndefined_eq_iff _).mp hu, stringifyTop_undefined]
          exact ⟨_, rfl, Or.inr (Or.inl ⟨⟨tk, rfl⟩, ho, rfl⟩)⟩
        · exact ⟨_, rfl, Or.inl (stringifyTop_isStr _ (Bool.eq_false_iff.mpr hu))⟩
      | bool b =>
        rw [jsMember]
        refine ⟨fun e he => Except.noConfusion he, fun r hr => ?_⟩
        injection hr with hr
        subst hr
        rw [stringifyTop_undefined]
        exact ⟨_, rfl, Or.inr (Or.inl ⟨⟨tk, rfl⟩, ho, rfl⟩)⟩
      | num n =>
        rw [jsMember]
        refine ⟨fun e he => Except.noConfusion he, fun r hr => ?_⟩
        injection hr with hr
        subst hr
        rw [stringifyTop_undefined]
        exact ⟨_, rfl, Or.inr (Or.inl ⟨⟨tk, rfl⟩, ho, rfl⟩)⟩
      | str s =>
        rw [jsMember]
        refine ⟨fun e he => Except.noConfusion he, fun r hr => ?_⟩
        injection hr with hr
        subst hr
        rw [stringifyTop_undefined]
        exact ⟨_, rfl, Or.inr (Or.inl ⟨⟨tk, rfl⟩, ho, rfl⟩)⟩
      | arr xs =>
        rw [jsMember]
        refine ⟨fun e he => Except.noConfusion he, fun r hr => ?_⟩
        injection hr with hr
        subst hr
        rw [stringifyTop_undefined]
        exact ⟨_, rfl, Or.inr (Or.inl ⟨⟨tk, rfl⟩, ho, rfl⟩)⟩
    · rw [if_neg ho]
      refine ⟨fun e he => Except.noConfusion he, fun r hr => ?_⟩
      injection hr with hr
      subst hr
      exact ⟨_, rfl, Or.inl rfl⟩
  | ingestFromFinnhub ts =>
    refine ⟨fun e he => Except.noConfusion he, fun r hr => ?_⟩
    rw [replyOf] at hr
    injection hr with hr
    subst hr
    rw [ingestFromFinnhub_reply]
    by_cases hc : cleanedTickers ts = []
    · rw [if_pos hc]
      exact ⟨_, rfl, Or.inl rfl⟩
    · rw [if_neg hc]
      by_cases ho : resOk res.status = true
      · rw [if_pos ho]
        exact ⟨_, rfl, Or.inl (stringifyTop_isStr _ hjson)⟩
      · rw [if_neg ho]
        exact ⟨_, rfl, Or.inl rfl⟩
  | runFundamentals tk =>
    refine ⟨fun e he => Except.noConfusion he, fun r hr => ?_⟩
    rw [replyOf] at hr
    injection hr with hr
    subst hr
    rw [runFundamentals_reply]
    by_cases ho : resOk res.status = true
    · rw [if_pos ho]
      exact ⟨_, rfl, Or.inl (stringifyTop_isStr _ hjson)⟩
    · rw [if_neg ho]
      exact ⟨_, rfl, Or.inl rfl⟩
  | configError =>
    refine ⟨fun e he => Except.noConfusion he, fun r hr => ?_⟩
    rw [replyOf] at hr
    injection hr with hr
    subst hr
    exact ⟨_, rfl, Or.inl rfl⟩

theorem reply_single_text_block_witness :
    (JsValue.obj []).isUndefined = false ∧
    ((∀ e, replyOf (Invocation.listUniverse none 100) ⟨500, "", JsValue.obj []⟩ =
        Except.error e →
       (∃ tk, Invocation.listUniverse none 100 = Invocation.getAssetDetails tk) ∧
       resOk 500 = true ∧ (JsValue.obj [] : JsValue) = JsValue.null) ∧
     (∀ r, replyOf (Invocation.listUniverse none 100) ⟨500, "", JsValue.obj []⟩ =
        Except.ok r →
       ∃ v, r.content = [{ type := "text", text := v }] ∧
         (v.isStr = true ∨
          ((∃ tk, Invocation.listUniverse none 100 =
             Invocation.getAssetDetails tk) ∧
            resOk 500 = true ∧ v = JsValue.undefined) ∨
          ((∃ k u, Invocation.listUniverse none 100 =
             Invocation.explainUniverse k u) ∧
            resOk 500 = true ∧
            jsOptMemberV (JsValue.obj []) "rationale" = v ∧ v.isStr = false)))) :=
  ⟨rfl, reply_single_text_block (Invocation.listUniverse none 100)
    ⟨500, "", JsValue.obj []⟩ rfl⟩
